import Mathlib

/-! The `pct_change` transform (`src/transforms/pct_change.js`).

A shallow embedding of `supplyDefaults`, `calcTransform` and `getIndices` together
with the properties of the option defaults and of the percent-change calculation.

Modelling conventions.

* A JavaScript number is a `Num`: an exact rational, one of the two
  infinities, or `NaN`.  Subtraction and division follow the IEEE rules for
  the special values (`x / 0`, `∞ - ∞`, ...); finite results are exact
  (no rounding) and the two zeros are identified (`0` stands for `+0`).
* A JavaScript array is a list of slots, `none` being a hole / `undefined`.
  Writing past the end grows the array, as in JavaScript.
* The trace is a record: the arrays reachable by a property path, the
  `_length` hint and the list of transforms.
* Host functions that live outside this file of the repository
  (`Lib.getTargetArray`, `Lib.nestedProperty`, `Lib.coerce`) are modelled from
  their description; `Axes.getDataToCoordFunc` and `pointsAccessorFunction` are
  parameters (`Host`).
-/

namespace PctChange

/-! ## Numbers -/

/-- A JavaScript number: exact finite value, `+Infinity`, `-Infinity` or `NaN`. -/
inductive Num where
  | fin (q : ℚ)
  | posInf
  | negInf
  | nan
  deriving DecidableEq

namespace Num

/-- The JavaScript `a - b`, idealised: the IEEE rules for infinities and `NaN`, and an
exact difference of finite operands (binary64 rounding and overflow are not modelled). -/
def sub : Num → Num → Num
  | fin a, fin b => fin (a - b)
  | nan, _ => nan
  | _, nan => nan
  | posInf, posInf => nan
  | negInf, negInf => nan
  | posInf, _ => posInf
  | negInf, _ => negInf
  | fin _, posInf => negInf
  | fin _, negInf => posInf

/-- The JavaScript `a / b`, idealised: the IEEE rules for infinities, `NaN` and a zero
divisor (taken as `+0`: the sign of zero is not modelled), and an exact quotient of
finite operands (binary64 rounding and overflow are not modelled). -/
def div : Num → Num → Num
  | fin a, fin b =>
    if b = 0 then
      (if a = 0 then nan else if 0 < a then posInf else negInf)
    else fin (a / b)
  | nan, _ => nan
  | _, nan => nan
  | fin _, posInf => fin 0
  | fin _, negInf => fin 0
  | posInf, fin b => if 0 ≤ b then posInf else negInf
  | negInf, fin b => if 0 ≤ b then negInf else posInf
  | posInf, posInf => nan
  | posInf, negInf => nan
  | negInf, posInf => nan
  | negInf, negInf => nan

end Num

/-! ## Arrays and loops -/

/-- A JavaScript array of `α`: `none` is a hole (reads as `undefined`). -/
abbrev JSArray (α : Type) := List (Option α)

/-- The expression `new Array(len)`: `len` holes. -/
def newArray (α : Type) (len : Nat) : JSArray α := List.replicate len none

/-- The read `a[i]`: `none` when the slot is a hole or past the end. -/
def JSArray.read {α : Type} (a : JSArray α) (i : Nat) : Option α := (a[i]?).join

/-- The assignment `a[i] = v`: in place when `i < a.length`, otherwise the array
grows to length `i + 1`, the new slots below `i` being holes. -/
def JSArray.write {α : Type} (a : JSArray α) (i : Nat) (v : α) : JSArray α :=
  if i < a.length then a.set i (some v)
  else a ++ List.replicate (i - a.length) none ++ [some v]

/-- The conversion of an array element to a number in arithmetic: `undefined` is `NaN`. -/
def toNumber : Option Num → Num
  | some x => x
  | none => Num.nan

/-- The loop `for(j = j0; j < j0 + n; j++) s = body(j, s)`: `n` iterations from `j0`. -/
def forLoop {σ : Type} (body : Nat → σ → σ) : Nat → Nat → σ → σ
  | 0, _, s => s
  | n + 1, j, s => forLoop body n (j + 1) (body j s)

/-- The same loop with a body that may throw. -/
def forLoopM {σ : Type} (body : Nat → σ → Except String σ) : Nat → Nat → σ → Except String σ
  | 0, _, s => .ok s
  | n + 1, j, s =>
    match body j s with
    | .ok s1 => forLoopM body n (j + 1) s1
    | .error e => .error e

/-! ## Data model -/

/-- The `target` option: a property path or a literal data array. -/
inductive Target where
  | path (p : String)
  | array (a : JSArray Num)

/-- The index map `_indexToPoints`: an object keyed by output position, in
insertion order; a value is the list of original point indices. -/
abbrev IndexMap := List (Nat × List Nat)

/-- The assignment `m[k] = v` on an object. -/
def IndexMap.assign (m : IndexMap) (k : Nat) (v : List Nat) : IndexMap :=
  if m.any (fun e => e.1 == k) then m.map (fun e => if e.1 == k then (k, v) else e)
  else m ++ [(k, v)]

/-- The read `m[k]`. -/
def IndexMap.get (m : IndexMap) (k : Nat) : Option (List Nat) := m.lookup k

/-- The keys of the object, in order. -/
def IndexMap.keys (m : IndexMap) : List Nat := m.map Prod.fst

/-- The resolved options of one transform; a field that was not resolved is `none`. -/
structure TransformOpts where
  enabled : Bool
  target : Option Target
  calcType : Option String
  _indexToPoints : Option IndexMap

/-- The trace: the data arrays by property path (`none`: no array at that path),
the `_length` hint and the transform chain. -/
structure Trace where
  props : String → Option (JSArray Num)
  _length : Option Nat
  transforms : List TransformOpts

/-- The functions of the host library that `calcTransform` calls and whose result
this module only passes on. -/
structure Host where
  getDataToCoordFunc : Trace → Option Target → JSArray Num → (Num → Num)
  pointsAccessorFunction : List TransformOpts → TransformOpts → (Option Nat → List Nat)

/-- Modelled from the spec: `Lib.getTargetArray` ("resolveTargetArray(trace, options) ->
sequence-of-number | undefined: locates the source data, by path or literal array"). -/
def getTargetArray (trace : Trace) (opts : TransformOpts) : Option (JSArray Num) :=
  match opts.target with
  | some (.path p) => trace.props p
  | some (.array a) => some a
  | none => none

/-- The accessor returned by `Lib.nestedProperty`. -/
structure NestedProperty where
  get : Option (JSArray Num)
  set : JSArray Num → Trace

/-- Modelled from the spec: `Lib.nestedProperty` ("getNestedAccessor(trace, path) ->
{ get(): sequence, set(sequence): void }: read/write access to a (possibly dotted-path)
field on the trace"); what is not a path is a malformed path, an error of the
collaborator that propagates to the caller. -/
def nestedProperty (trace : Trace) : Option Target → Except String NestedProperty
  | some (.path p) =>
    .ok { get := trace.props p
          set := fun a => { trace with props := fun q => if q = p then some a else trace.props q } }
  | _ => .error "bad property string"

/-! ## The transform -/

/-- An element `{v: ..., i: ...}` of `pctArray`. -/
structure PctEntry where
  v : Option Num
  i : Nat

/-- The function `getIndices` (lines 126-140). -/
def getIndices (_opts : TransformOpts) (targetArray : JSArray Num) (_d2c : Num → Num)
    (len : Nat) : Except String (JSArray Nat) :=
  let pctArray : JSArray PctEntry := newArray PctEntry len
  let indices : JSArray Nat := newArray Nat len
  let pctArray := forLoop (fun i pctArray => pctArray.write i { v := targetArray.read i, i := i })
    len 0 pctArray
  forLoopM (fun i indices =>
      match pctArray.read i with
      | some e => .ok (indices.write i e.i)
      | none => .error "TypeError: pctArray[i] is undefined")
    len 0 indices

/-- The working length (lines 91-92): `len = targetArray.length;
if(trace._length) len = Math.min(len, trace._length)`. -/
def workingLen (targetArray : JSArray Num) (trace : Trace) : Nat :=
  let len := targetArray.length
  match trace._length with
  | some n => if n ≠ 0 then min len n else len
  | none => len

/-- The baseline index chosen by the `switch` (lines 105-113). -/
def tmpIndex (calcType : Option String) (j : Nat) : Nat :=
  if calcType = some "first" then 0
  else if calcType = some "prev" then j - 1
  else 0

/-- The calculation (lines 102-115): `arrayNew` after the loop. -/
def pctArrayNew (calcType : Option String) (arrayOld : JSArray Num) (len : Nat) : JSArray Num :=
  let arrayNew : JSArray Num := newArray Num len
  let arrayNew := arrayNew.write 0 (Num.fin 0)
  forLoop (fun j arrayNew =>
      arrayNew.write j
        (Num.div (Num.sub (toNumber (arrayOld.read j)) (toNumber (arrayOld.read (tmpIndex calcType j))))
          (toNumber (arrayOld.read j))))
    (len - 1) 1 arrayNew

/-- The loop of lines 118-120 that fills `indexToPoints`. -/
def fillIndexToPoints (originalPointsAccessor : Option Nat → List Nat) (indices : JSArray Nat)
    (len : Nat) : IndexMap :=
  forLoop (fun j indexToPoints => indexToPoints.assign j (originalPointsAccessor (indices.read j)))
    len 0 []

/-- The function `calcTransform` (lines 82-124): the trace and the options after the
call, or the exception that escapes. -/
def calcTransform (host : Host) (trace : Trace) (opts : TransformOpts) :
    Except String (Trace × TransformOpts) :=
  if !opts.enabled then .ok (trace, opts)
  else
    match getTargetArray trace opts with
    | none => .ok (trace, opts)
    | some targetArray =>
      let target := opts.target
      let calcType := opts.calcType
      let len := workingLen targetArray trace
      let d2c := host.getDataToCoordFunc trace target targetArray
      match getIndices opts targetArray d2c len with
      | .error e => .error e
      | .ok indices =>
        let originalPointsAccessor := host.pointsAccessorFunction trace.transforms opts
        match nestedProperty trace target with
        | .error e => .error e
        | .ok np =>
          -- `np.get()` is the array found by `getTargetArray` at the same path
          match np.get with
          | none => .error "TypeError: arrayOld is undefined"
          | some arrayOld =>
            let arrayNew := pctArrayNew calcType arrayOld len
            let trace1 := np.set arrayNew
            let indexToPoints := fillIndexToPoints originalPointsAccessor indices len
            .ok ({ trace1 with _length := some len },
                 { opts with _indexToPoints := some indexToPoints })

/-- The value the calculation leaves at position `j` of `arrayNew`, read off lines
103 and 114; `pctArrayNew_eq` proves that the loop stores exactly this. -/
def pctValue (calcType : Option String) (arrayOld : JSArray Num) (j : Nat) : Num :=
  if j = 0 then Num.fin 0
  else Num.div (Num.sub (toNumber (arrayOld.read j)) (toNumber (arrayOld.read (tmpIndex calcType j))))
        (toNumber (arrayOld.read j))

/-- The length in the specification's words: "min(source array length, trace's
`_length` if present)". -/
def specLen (source : JSArray Num) (trace : Trace) : Nat :=
  match trace._length with
  | some n => min source.length n
  | none => source.length

/-! ## Sample inputs -/

/-- A host with no upstream transform: the accessor maps an index to itself. -/
def sampleHost : Host :=
  { getDataToCoordFunc := fun _ _ _ => id
    pointsAccessorFunction := fun _ _ i => i.toList }

/-- A trace whose only data array is `x`. -/
def sampleTrace (S : JSArray Num) (hint : Option Nat) : Trace :=
  { props := fun q => if q = "x" then some S else none
    _length := hint
    transforms := [] }

/-- Enabled options on the target `x`. -/
def sampleOpts (calcType : String) : TransformOpts :=
  { enabled := true, target := some (.path "x"), calcType := some calcType,
    _indexToPoints := none }

/-- Enabled options whose target path `y` holds no array in the sample trace. -/
def missingOpts : TransformOpts :=
  { enabled := true, target := some (.path "y"), calcType := some "first",
    _indexToPoints := none }

/-- Disabled options, as resolved: only `enabled` is present. -/
def disabledOpts : TransformOpts :=
  { enabled := false, target := none, calcType := none, _indexToPoints := none }

/-- The sequence `[10, 20, 30]`. -/
def S3 : JSArray Num := [some (.fin 10), some (.fin 20), some (.fin 30)]

/-- The sequence `[10, 20, 30, 40, 50]`. -/
def S5 : JSArray Num :=
  [some (.fin 10), some (.fin 20), some (.fin 30), some (.fin 40), some (.fin 50)]

/-- The sequence `[0, 5]`. -/
def S05 : JSArray Num := [some (.fin 0), some (.fin 5)]

/-- The sequence `[1, Infinity]`. -/
def SInf : JSArray Num := [some (.fin 1), some .posInf]

/-- The JavaScript comparison `a < b`: false when either side is `NaN`. -/
def Num.lt : Num → Num → Bool
  | .fin a, .fin b => decide (a < b)
  | .nan, _ => false
  | _, .nan => false
  | .negInf, .negInf => false
  | .negInf, _ => true
  | _, .negInf => false
  | .posInf, _ => false
  | .fin _, .posInf => true

/-- The JavaScript comparison `a <= b`: false when either side is `NaN`. -/
def Num.le : Num → Num → Bool
  | .fin a, .fin b => decide (a ≤ b)
  | .nan, _ => false
  | _, .nan => false
  | .negInf, _ => true
  | _, .posInf => true
  | .posInf, _ => false
  | .fin _, .negInf => false

/-! ## Multiplication, used to state scale invariance -/

/-- The JavaScript `a * b`. -/
def Num.mul : Num → Num → Num
  | .fin a, .fin b => .fin (a * b)
  | .nan, _ => .nan
  | _, .nan => .nan
  | .fin a, .posInf => if a = 0 then .nan else if 0 < a then .posInf else .negInf
  | .fin a, .negInf => if a = 0 then .nan else if 0 < a then .negInf else .posInf
  | .posInf, .fin b => if b = 0 then .nan else if 0 < b then .posInf else .negInf
  | .negInf, .fin b => if b = 0 then .nan else if 0 < b then .negInf else .posInf
  | .posInf, .posInf => .posInf
  | .posInf, .negInf => .negInf
  | .negInf, .posInf => .negInf
  | .negInf, .negInf => .posInf

/-- The sequence `k * S`: every element multiplied by the finite number `k`
(a hole stays a hole). -/
def scaleArray (k : ℚ) (S : JSArray Num) : JSArray Num :=
  S.map (Option.map (Num.mul (.fin k)))

/-! ## Option records and `supplyDefaults` -/

/-- A JavaScript value held by an option record. -/
inductive Value where
  | undefined
  | bool (b : Bool)
  | number (x : Num)
  | string (s : String)
  | array (a : JSArray Num)
  deriving DecidableEq

/-- The truthiness of a value, as tested by `if(v)`. -/
def Value.truthy : Value → Bool
  | .undefined => false
  | .bool b => b
  | .number (.fin q) => decide (q ≠ 0)
  | .number .nan => false
  | .number _ => true
  | .string s => decide (s ≠ "")
  | .array _ => true

/-- A plain object: its own properties, in insertion order. -/
abbrev Obj := List (String × Value)

/-- The read `o[k]`: `undefined` when the property is absent. -/
def Obj.get (o : Obj) (k : String) : Value := (o.lookup k).getD .undefined

/-- The assignment `o[k] = v`. -/
def Obj.set (o : Obj) (k : String) (v : Value) : Obj :=
  if o.any (fun e => e.1 == k) then o.map (fun e => if e.1 == k then (k, v) else e)
  else o ++ [(k, v)]

/-- The own property names of the object. -/
def Obj.keys (o : Obj) : List String := o.map Prod.fst

/-- One entry of `exports.attributes`: the fields that drive coercion (`role`,
`editType` and `description` are documentation). -/
structure Attribute where
  valType : String
  strict : Bool
  noBlank : Bool
  arrayOk : Bool
  dflt : Value

/-- The table `exports.attributes` (lines 19-63). -/
def attributes : List (String × Attribute) :=
  [ ("enabled",
      { valType := "boolean", strict := false, noBlank := false, arrayOk := false,
        dflt := .bool true }),
    ("target",
      { valType := "string", strict := true, noBlank := true, arrayOk := true,
        dflt := .string "x" }),
    ("calcType",
      { valType := "string", strict := true, noBlank := true, arrayOk := true,
        dflt := .string "first" }) ]

/-- Modelled from the spec: the value `Lib.coerce` settles on for one field ("`enabled`:
coerced to boolean, default `true`"; "string or array, non-blank if string, default"):
an array where the schema allows arrays, a boolean for a boolean field, a string (not
blank where the schema forbids it) for a string field, and the default otherwise.  The
string fields of this schema are strict: no other value is converted to a string. -/
def coerceValue (opts : Attribute) (v : Value) (dflt : Value) : Value :=
  match v with
  | .array a => if opts.arrayOk then .array a else dflt
  | .bool b => if opts.valType = "boolean" then .bool b else dflt
  | .string s =>
    if opts.valType = "string" then (if opts.noBlank && s = "" then dflt else .string s)
    else dflt
  | _ => dflt

/-- Modelled from the spec: `Lib.coerce` ("coerce(record, attributeSchema, fieldName,
default) -> value: schema-driven default-application utility"; "Side effects: none beyond
producing the output record; must not mutate the input record").  The result is the input
record after the call, the output record after the call and the value returned. -/
def Lib.coerce (containerIn containerOut : Obj) (attributes : List (String × Attribute))
    (attr : String) (dflt : Option Value) : Obj × Obj × Value :=
  match attributes.lookup attr with
  | none => (containerIn, containerOut, .undefined)
  | some opts =>
    let v := containerIn.get attr
    let out := coerceValue opts v (dflt.getD opts.dflt)
    (containerIn, containerOut.set attr out, out)

/-- The function `supplyDefaults` (lines 65-80): the input record after the call and the
record `transformOut` that is returned. -/
def supplyDefaults (transformIn : Obj) : Obj × Obj :=
  let transformOut : Obj := []
  let coerce := fun (tIn tOut : Obj) (attr : String) (dflt : Option Value) =>
    Lib.coerce tIn tOut attributes attr dflt
  let r1 := coerce transformIn transformOut "enabled" none
  let enabled := r1.2.2
  if enabled.truthy then
    let r2 := coerce r1.1 r1.2.1 "target" none
    let r3 := coerce r2.1 r2.2.1 "calcType" none
    (r3.1, r3.2.1)
  else (r1.1, r1.2.1)

/-- A raw record that disables the transform and still names a target and a `calcType`. -/
def rawDisabled : Obj :=
  [("enabled", .bool false), ("target", .string "y"), ("calcType", .string "prev")]

/-- A raw record with an unrecognised `calcType`. -/
def rawMedian : Obj := [("calcType", .string "median")]

/-! ## Loops in closed form -/

theorem JSArray.write_of_lt {α : Type} (a : JSArray α) (i : Nat) (v : α) (h : i < a.length) :
    a.write i v = a.set i (some v) := by
  simp [JSArray.write, h]

theorem write_fill_step {α : Type} (g : Nat → α) (n j : Nat) :
    JSArray.write ((List.range j).map (fun i => some (g i)) ++ List.replicate (n + 1) none) j (g j)
      = (List.range (j + 1)).map (fun i => some (g i)) ++ List.replicate n none := by
  rw [JSArray.write_of_lt _ _ _ (by simp)]
  rw [List.set_append_right _ _ (by simp)]
  simp [List.range_succ, List.replicate_succ]

theorem forLoop_fill {α : Type} (g : Nat → α) (body : Nat → JSArray α → JSArray α) (j0 : Nat)
    (hb : ∀ i a, j0 ≤ i → body i a = a.write i (g i)) :
    ∀ n j, j0 ≤ j →
      forLoop body n j ((List.range j).map (fun i => some (g i)) ++ List.replicate n none)
        = (List.range (j + n)).map (fun i => some (g i)) := by
  intro n
  induction n with
  | zero => intro j _; simp [forLoop]
  | succ n ih =>
    intro j hj
    rw [forLoop, hb j _ hj, write_fill_step, ih (j + 1) (by omega)]
    congr 2
    omega

theorem forLoopM_fill {α : Type} (g : Nat → α) (body : Nat → JSArray α → Except String (JSArray α))
    (bound : Nat) (hb : ∀ i a, i < bound → body i a = .ok (a.write i (g i))) :
    ∀ n j, j + n ≤ bound →
      forLoopM body n j ((List.range j).map (fun i => some (g i)) ++ List.replicate n none)
        = .ok ((List.range (j + n)).map (fun i => some (g i))) := by
  intro n
  induction n with
  | zero => intro j _; simp [forLoopM]
  | succ n ih =>
    intro j hj
    rw [forLoopM, hb j _ (by omega)]
    simp only
    rw [write_fill_step, ih (j + 1) (by omega)]
    congr 3
    omega

theorem read_range_map {α : Type} (g : Nat → α) (n i : Nat) (h : i < n) :
    JSArray.read ((List.range n).map (fun i => some (g i))) i = some (g i) := by
  simp [JSArray.read, List.getElem?_range h, h]

theorem getIndices_eq (opts : TransformOpts) (targetArray : JSArray Num) (d2c : Num → Num)
    (len : Nat) :
    getIndices opts targetArray d2c len = .ok ((List.range len).map (fun i => some i)) := by
  unfold getIndices
  simp only
  have h1 := forLoop_fill (fun i => ({ v := targetArray.read i, i := i } : PctEntry))
    (fun i pctArray => pctArray.write i { v := targetArray.read i, i := i }) 0
    (fun _ _ _ => rfl) len 0 (Nat.le_refl 0)
  simp only [List.range_zero, List.map_nil, List.nil_append, Nat.zero_add] at h1
  rw [newArray, newArray, h1]
  have h2 := forLoopM_fill (fun i => i)
    (fun i indices =>
      match JSArray.read ((List.range len).map
          (fun i => some ({ v := targetArray.read i, i := i } : PctEntry))) i with
      | some e => .ok (indices.write i e.i)
      | none => .error "TypeError: pctArray[i] is undefined") len
    (by
      intro i a hi
      simp only
      rw [read_range_map (fun i => ({ v := targetArray.read i, i := i } : PctEntry)) len i hi])
    len 0 (by omega)
  simp only [List.range_zero, List.map_nil, List.nil_append, Nat.zero_add] at h2
  exact h2

theorem pctArrayNew_zero (calcType : Option String) (arrayOld : JSArray Num) :
    pctArrayNew calcType arrayOld 0 = [some (Num.fin 0)] := by
  simp [pctArrayNew, newArray, JSArray.write, forLoop]

theorem pctArrayNew_eq (calcType : Option String) (arrayOld : JSArray Num) (len : Nat)
    (hlen : 1 ≤ len) :
    pctArrayNew calcType arrayOld len
      = (List.range len).map (fun j => some (pctValue calcType arrayOld j)) := by
  obtain ⟨n, rfl⟩ : ∃ n, len = n + 1 := ⟨len - 1, by omega⟩
  unfold pctArrayNew
  simp only [Nat.add_sub_cancel]
  have h0 : JSArray.write (newArray Num (n + 1)) 0 (Num.fin 0)
      = (List.range 1).map (fun j => some (pctValue calcType arrayOld j))
          ++ List.replicate n none := by
    simp [JSArray.write, newArray, List.replicate_succ, pctValue, List.range_succ]
  rw [h0]
  have h1 := forLoop_fill (pctValue calcType arrayOld)
    (fun j arrayNew => arrayNew.write j
        (Num.div (Num.sub (toNumber (arrayOld.read j)) (toNumber (arrayOld.read (tmpIndex calcType j))))
          (toNumber (arrayOld.read j)))) 1
    (by
      intro i a hi
      have : i ≠ 0 := by omega
      simp [pctValue, this])
    n 1 (Nat.le_refl 1)
  rw [h1, Nat.add_comm 1 n]

theorem assign_fresh (h : Nat → List Nat) (j : Nat) (v : List Nat) :
    IndexMap.assign ((List.range j).map (fun i => (i, h i))) j v
      = (List.range j).map (fun i => (i, h i)) ++ [(j, v)] := by
  have : ((List.range j).map (fun i => (i, h i))).any (fun e => e.1 == j) = false := by
    rw [List.any_eq_false]
    intro e he
    simp only [List.mem_map, List.mem_range] at he
    obtain ⟨i, hi, rfl⟩ := he
    simp
    omega
  simp [IndexMap.assign, this]

theorem forLoop_assign (h : Nat → List Nat) (body : Nat → IndexMap → IndexMap) (bound : Nat)
    (hb : ∀ i m, i < bound → body i m = m.assign i (h i)) :
    ∀ n j, j + n ≤ bound →
      forLoop body n j ((List.range j).map (fun i => (i, h i)))
        = (List.range (j + n)).map (fun i => (i, h i)) := by
  intro n
  induction n with
  | zero => intro j _; simp [forLoop]
  | succ n ih =>
    intro j hj
    rw [forLoop, hb j _ (by omega), assign_fresh]
    have := ih (j + 1) (by omega)
    simp only [List.range_succ, List.map_append, List.map_cons, List.map_nil] at this
    rw [this]
    congr 2
    omega

theorem fillIndexToPoints_eq (acc : Option Nat → List Nat) (len : Nat) :
    fillIndexToPoints acc ((List.range len).map (fun i => some i)) len
      = (List.range len).map (fun i => (i, acc (some i))) := by
  have := forLoop_assign (fun i => acc (some i))
    (fun j indexToPoints => indexToPoints.assign j
      (acc (JSArray.read ((List.range len).map (fun i => some i)) j))) len
    (by
      intro i m hi
      simp only
      rw [read_range_map (fun i => i) len i hi])
    len 0 (by omega)
  simpa [fillIndexToPoints] using this

/-! ## The effect of `calcTransform` -/

theorem calcTransform_path (host : Host) (trace : Trace) (opts : TransformOpts) (p : String)
    (S : JSArray Num) (hen : opts.enabled = true) (ht : opts.target = some (.path p))
    (hS : trace.props p = some S) :
    calcTransform host trace opts = .ok
      ({ props := fun q =>
            if q = p then some (pctArrayNew opts.calcType S (workingLen S trace)) else trace.props q
         _length := some (workingLen S trace)
         transforms := trace.transforms },
       { opts with _indexToPoints := some ((List.range (workingLen S trace)).map
            (fun i => (i, host.pointsAccessorFunction trace.transforms opts (some i)))) }) := by
  have hg : getTargetArray trace opts = some S := by simp [getTargetArray, ht, hS]
  unfold calcTransform
  simp only [hen, hg, getIndices_eq, ht, nestedProperty, hS, fillIndexToPoints_eq]
  rfl

theorem lookup_range_map (h : Nat → List Nat) (n i : Nat) (hi : i < n) :
    IndexMap.get ((List.range n).map (fun i => (i, h i))) i = some (h i) := by
  unfold IndexMap.get
  induction n with
  | zero => omega
  | succ n ih =>
    rw [List.range_succ, List.map_append, List.lookup_append]
    by_cases hin : i < n
    · rw [ih hin]; rfl
    · have hieq : i = n := by omega
      subst hieq
      have hnone : List.lookup i ((List.range i).map (fun i => (i, h i))) = none := by
        rw [List.lookup_eq_none_iff]
        intro e he
        simp only [List.mem_map, List.mem_range] at he
        obtain ⟨k, hk, rfl⟩ := he
        simp
        omega
      rw [hnone]
      simp [List.lookup]

theorem read_take (S : JSArray Num) (k j : Nat) (hj : j < k) :
    JSArray.read (S.take k) j = JSArray.read S j := by
  simp [JSArray.read, List.getElem?_take, hj]

theorem tmpIndex_le (calcType : Option String) (j : Nat) : tmpIndex calcType j ≤ j := by
  unfold tmpIndex
  split
  · omega
  · split <;> omega

theorem pctValue_take (calcType : Option String) (S : JSArray Num) (k j : Nat) (hj : j < k) :
    pctValue calcType (S.take k) j = pctValue calcType S j := by
  have h1 := tmpIndex_le calcType j
  unfold pctValue
  rw [read_take S k j hj, read_take S k _ (by omega)]

theorem pctArrayNew_take (calcType : Option String) (S : JSArray Num) (k : Nat) (hk : 1 ≤ k) :
    pctArrayNew calcType (S.take k) k = pctArrayNew calcType S k := by
  rw [pctArrayNew_eq _ _ _ hk, pctArrayNew_eq _ _ _ hk]
  apply List.map_congr_left
  intro j hj
  rw [pctValue_take calcType S k j (List.mem_range.mp hj)]

theorem read_pctArrayNew (calcType : Option String) (S : JSArray Num) (len j : Nat)
    (hlen : 1 ≤ len) (hj : j < len) :
    JSArray.read (pctArrayNew calcType S len) j = some (pctValue calcType S j) := by
  rw [pctArrayNew_eq _ _ _ hlen]
  exact read_range_map (pctValue calcType S) len j hj

theorem length_pctArrayNew (calcType : Option String) (S : JSArray Num) (len : Nat)
    (hlen : 1 ≤ len) : (pctArrayNew calcType S len).length = len := by
  rw [pctArrayNew_eq _ _ _ hlen]
  simp

theorem calcTransform_skip_disabled (host : Host) (trace : Trace) (opts : TransformOpts)
    (hen : opts.enabled = false) :
    calcTransform host trace opts = .ok (trace, opts) := by
  simp [calcTransform, hen]

theorem calcTransform_skip_unresolved (host : Host) (trace : Trace) (opts : TransformOpts)
    (h : getTargetArray trace opts = none) :
    calcTransform host trace opts = .ok (trace, opts) := by
  unfold calcTransform
  split
  · rfl
  · simp [h]

/-! ## Properties -/

/-- C1: with `calcType` `first`, enabled options and a target path that resolves to the
source `S`, for a working length `len ≥ 1` the call returns and the array written back
at the target has element 0 equal to `0` and, for `1 ≤ j < len`, element `j` equal to
`(S[j] - S[0]) / S[j]`. -/
theorem calcTransform_first (host : Host) (trace : Trace) (opts : TransformOpts) (p : String)
    (S : JSArray Num) (hen : opts.enabled = true) (ht : opts.target = some (.path p))
    (hS : trace.props p = some S) (hct : opts.calcType = some "first")
    (hlen : 1 ≤ workingLen S trace) :
    ∃ trace1 opts1 W, calcTransform host trace opts = .ok (trace1, opts1) ∧
      trace1.props p = some W ∧
      W.read 0 = some (Num.fin 0) ∧
      ∀ j, 1 ≤ j → j < workingLen S trace →
        W.read j = some (Num.div (Num.sub (toNumber (S.read j)) (toNumber (S.read 0)))
          (toNumber (S.read j))) := by
  refine ⟨_, _, pctArrayNew opts.calcType S (workingLen S trace),
    calcTransform_path host trace opts p S hen ht hS, by simp, ?_, ?_⟩
  · rw [read_pctArrayNew _ _ _ _ hlen (by omega)]
    simp [pctValue]
  · intro j hj1 hj
    rw [read_pctArrayNew _ _ _ _ hlen hj]
    have : j ≠ 0 := by omega
    simp [pctValue, this, tmpIndex, hct]

theorem calcTransform_first_witness :
    (sampleOpts "first").enabled = true ∧ 1 ≤ workingLen S3 (sampleTrace S3 none) ∧
    ∃ trace1 opts1 W,
      calcTransform sampleHost (sampleTrace S3 none) (sampleOpts "first") = .ok (trace1, opts1) ∧
      trace1.props "x" = some W ∧
      W.read 0 = some (Num.fin 0) ∧
      ∀ j, 1 ≤ j → j < workingLen S3 (sampleTrace S3 none) →
        W.read j = some (Num.div (Num.sub (toNumber (S3.read j)) (toNumber (S3.read 0)))
          (toNumber (S3.read j))) :=
  ⟨rfl, by decide,
    calcTransform_first sampleHost (sampleTrace S3 none) (sampleOpts "first") "x" S3 rfl rfl
      (by simp [sampleTrace]) rfl (by decide)⟩

/-- C2: with `calcType` `prev`, enabled options and a target path that resolves to the
source `S`, for a working length `len ≥ 1` the call returns and the array written back
at the target has element 0 equal to `0` and, for `1 ≤ j < len`, element `j` equal to
`(S[j] - S[j-1]) / S[j]`. -/
theorem calcTransform_prev (host : Host) (trace : Trace) (opts : TransformOpts) (p : String)
    (S : JSArray Num) (hen : opts.enabled = true) (ht : opts.target = some (.path p))
    (hS : trace.props p = some S) (hct : opts.calcType = some "prev")
    (hlen : 1 ≤ workingLen S trace) :
    ∃ trace1 opts1 W, calcTransform host trace opts = .ok (trace1, opts1) ∧
      trace1.props p = some W ∧
      W.read 0 = some (Num.fin 0) ∧
      ∀ j, 1 ≤ j → j < workingLen S trace →
        W.read j = some (Num.div (Num.sub (toNumber (S.read j)) (toNumber (S.read (j - 1))))
          (toNumber (S.read j))) := by
  refine ⟨_, _, pctArrayNew opts.calcType S (workingLen S trace),
    calcTransform_path host trace opts p S hen ht hS, by simp, ?_, ?_⟩
  · rw [read_pctArrayNew _ _ _ _ hlen (by omega)]
    simp [pctValue]
  · intro j hj1 hj
    rw [read_pctArrayNew _ _ _ _ hlen hj]
    have : j ≠ 0 := by omega
    simp [pctValue, this, tmpIndex, hct]

theorem calcTransform_prev_witness :
    (sampleOpts "prev").enabled = true ∧ 1 ≤ workingLen S3 (sampleTrace S3 none) ∧
    ∃ trace1 opts1 W,
      calcTransform sampleHost (sampleTrace S3 none) (sampleOpts "prev") = .ok (trace1, opts1) ∧
      trace1.props "x" = some W ∧
      W.read 0 = some (Num.fin 0) ∧
      ∀ j, 1 ≤ j → j < workingLen S3 (sampleTrace S3 none) →
        W.read j = some (Num.div (Num.sub (toNumber (S3.read j)) (toNumber (S3.read (j - 1))))
          (toNumber (S3.read j))) :=
  ⟨rfl, by decide,
    calcTransform_prev sampleHost (sampleTrace S3 none) (sampleOpts "prev") "x" S3 rfl rfl
      (by simp [sampleTrace]) rfl (by decide)⟩

theorem workingLen_pos (S : JSArray Num) (trace : Trace) (h : 1 ≤ S.length) :
    1 ≤ workingLen S trace := by
  unfold workingLen
  simp only
  split
  · split
    · rename_i n _ hn
      exact Nat.le_min.mpr ⟨h, by omega⟩
    · exact h
  · exact h

/-- C3 (counterexample): with source `[10, 20, 30]` and the hint `_length = 0` the written
array has length 3 and `_length` becomes 3, not `min(3, 0) = 0`; with the empty source
the written array has length 1, not 0. -/
theorem calcTransform_length_counterexample :
    (∃ trace1 opts1 W,
      calcTransform sampleHost (sampleTrace S3 (some 0)) (sampleOpts "first")
        = .ok (trace1, opts1) ∧
      trace1.props "x" = some W ∧ W.length = 3 ∧ trace1._length = some 3 ∧
      specLen S3 (sampleTrace S3 (some 0)) = 0) ∧
    (∃ trace1 opts1 W,
      calcTransform sampleHost (sampleTrace [] none) (sampleOpts "first")
        = .ok (trace1, opts1) ∧
      trace1.props "x" = some W ∧ W.length = 1 ∧ specLen [] (sampleTrace [] none) = 0) := by
  refine ⟨⟨_, _, pctArrayNew (some "first") S3 3,
      calcTransform_path sampleHost (sampleTrace S3 (some 0)) (sampleOpts "first") "x" S3
        rfl rfl (by simp [sampleTrace]), ?_, ?_, ?_, ?_⟩,
    ⟨_, _, pctArrayNew (some "first") [] 0,
      calcTransform_path sampleHost (sampleTrace [] none) (sampleOpts "first") "x" []
        rfl rfl (by simp [sampleTrace]), ?_, ?_, ?_⟩⟩
  · have : workingLen S3 (sampleTrace S3 (some 0)) = 3 := by decide
    simp [this, sampleOpts]
  · exact length_pctArrayNew _ _ 3 (by decide)
  · have : workingLen S3 (sampleTrace S3 (some 0)) = 3 := by decide
    simp [this]
  · decide
  · have : workingLen [] (sampleTrace [] none) = 0 := by decide
    simp [this, sampleOpts]
  · simp [pctArrayNew_zero]
  · decide

/-- C3 (amended): with enabled options and a target path that resolves to a source of
length at least 1, the written array has length exactly `len` and `trace._length` is
`len` afterwards, where `len` is `min(source length, _length)` when the hint is present
and not 0, and the source length when the hint is absent or 0. -/
theorem calcTransform_length (host : Host) (trace : Trace) (opts : TransformOpts) (p : String)
    (S : JSArray Num) (hen : opts.enabled = true) (ht : opts.target = some (.path p))
    (hS : trace.props p = some S) (hne : 1 ≤ S.length) :
    ∃ trace1 opts1 W, calcTransform host trace opts = .ok (trace1, opts1) ∧
      trace1.props p = some W ∧
      W.length = workingLen S trace ∧
      trace1._length = some (workingLen S trace) ∧
      (∀ n, trace._length = some n → n ≠ 0 → workingLen S trace = min S.length n) ∧
      (trace._length = none ∨ trace._length = some 0 → workingLen S trace = S.length) := by
  refine ⟨_, _, pctArrayNew opts.calcType S (workingLen S trace),
    calcTransform_path host trace opts p S hen ht hS, by simp, ?_, rfl, ?_, ?_⟩
  · exact length_pctArrayNew _ _ _ (workingLen_pos S trace hne)
  · intro n hn hn0
    simp [workingLen, hn, hn0]
  · rintro (h | h) <;> simp [workingLen, h]

theorem calcTransform_length_witness :
    (sampleOpts "prev").enabled = true ∧ 1 ≤ S5.length ∧
    ∃ trace1 opts1 W,
      calcTransform sampleHost (sampleTrace S5 (some 3)) (sampleOpts "prev")
        = .ok (trace1, opts1) ∧
      trace1.props "x" = some W ∧
      W.length = workingLen S5 (sampleTrace S5 (some 3)) ∧
      trace1._length = some (workingLen S5 (sampleTrace S5 (some 3))) ∧
      (∀ n, (sampleTrace S5 (some 3))._length = some n → n ≠ 0 →
        workingLen S5 (sampleTrace S5 (some 3)) = min S5.length n) ∧
      ((sampleTrace S5 (some 3))._length = none ∨ (sampleTrace S5 (some 3))._length = some 0 →
        workingLen S5 (sampleTrace S5 (some 3)) = S5.length) :=
  ⟨rfl, by decide,
    calcTransform_length sampleHost (sampleTrace S5 (some 3)) (sampleOpts "prev") "x" S5 rfl rfl
      (by simp [sampleTrace]) (by decide)⟩

/-- C4: when `opts.enabled` is false, `calcTransform` returns with the trace and the
options exactly as they were: target array, `_length` and `_indexToPoints` included. -/
theorem calcTransform_disabled (host : Host) (trace : Trace) (opts : TransformOpts)
    (hen : opts.enabled = false) :
    calcTransform host trace opts = .ok (trace, opts) :=
  calcTransform_skip_disabled host trace opts hen

theorem calcTransform_disabled_witness :
    disabledOpts.enabled = false ∧
    calcTransform sampleHost (sampleTrace S3 (some 2)) disabledOpts
      = .ok (sampleTrace S3 (some 2), disabledOpts) :=
  ⟨rfl, calcTransform_disabled sampleHost (sampleTrace S3 (some 2)) disabledOpts rfl⟩

/-- C5 (counterexample): a target that resolves to the empty array is not skipped: the
target field becomes `[0]`, `_length` becomes 0 and an empty `_indexToPoints` is written. -/
theorem calcTransform_empty_target_counterexample :
    getTargetArray (sampleTrace [] none) (sampleOpts "first") = some [] ∧
    ∃ trace1 opts1,
      calcTransform sampleHost (sampleTrace [] none) (sampleOpts "first")
        = .ok (trace1, opts1) ∧
      trace1.props "x" = some [some (Num.fin 0)] ∧ (sampleTrace [] none).props "x" = some [] ∧
      trace1._length = some 0 ∧ (sampleTrace [] none)._length = none ∧
      opts1._indexToPoints = some [] ∧ (sampleOpts "first")._indexToPoints = none := by
  have hw : workingLen [] (sampleTrace [] none) = 0 := by decide
  refine ⟨by simp [getTargetArray, sampleOpts, sampleTrace], _, _,
    calcTransform_path sampleHost (sampleTrace [] none) (sampleOpts "first") "x" []
      rfl rfl (by simp [sampleTrace]), ?_, ?_, ?_, rfl, ?_, rfl⟩
  · simp [hw, pctArrayNew_zero]
  · simp [sampleTrace]
  · simp [hw]
  · simp [hw]

/-- C5 (amended): when the target cannot be resolved to an array (no target, or no array
at the target path), `calcTransform` returns with the trace and the options exactly as
they were. -/
theorem calcTransform_unresolved (host : Host) (trace : Trace) (opts : TransformOpts)
    (h : getTargetArray trace opts = none) :
    calcTransform host trace opts = .ok (trace, opts) :=
  calcTransform_skip_unresolved host trace opts h

theorem calcTransform_unresolved_witness :
    getTargetArray (sampleTrace S3 none) missingOpts = none ∧
    calcTransform sampleHost (sampleTrace S3 none) missingOpts
      = .ok (sampleTrace S3 none, missingOpts) :=
  ⟨by simp [getTargetArray, missingOpts, sampleTrace],
    calcTransform_unresolved sampleHost (sampleTrace S3 none) missingOpts
      (by simp [getTargetArray, missingOpts, sampleTrace])⟩

theorem workingLen_hint (S : JSArray Num) (trace : Trace) (k : Nat)
    (hk : trace._length = some k) (hk1 : 1 ≤ k) (hkS : k ≤ S.length) :
    workingLen S trace = k := by
  have : k ≠ 0 := by omega
  simp [workingLen, hk, this, hkS]

/-- C6: when the hint `_length = k` satisfies `1 ≤ k ≤ source length`, the written array
has exactly `k` elements, `_length` is still `k`, and the written array is computed from
the first `k` source elements only: its elements are the percent changes of the source
cut to `k` elements, and any source with the same first `k` elements gives the same
written array. -/
theorem calcTransform_clamp (host : Host) (trace : Trace) (opts : TransformOpts) (p : String)
    (S : JSArray Num) (k : Nat) (hen : opts.enabled = true)
    (ht : opts.target = some (.path p)) (hS : trace.props p = some S)
    (hk : trace._length = some k) (hk1 : 1 ≤ k) (hkS : k ≤ S.length) :
    ∃ trace1 opts1 W, calcTransform host trace opts = .ok (trace1, opts1) ∧
      trace1.props p = some W ∧
      W.length = k ∧
      trace1._length = some k ∧
      (∀ j, j < k → W.read j = some (pctValue opts.calcType (S.take k) j)) ∧
      (∀ S2 : JSArray Num, S2.take k = S.take k →
        ∃ trace2 opts2,
          calcTransform host
            { trace with props := fun q => if q = p then some S2 else trace.props q } opts
            = .ok (trace2, opts2) ∧
          trace2.props p = some W) := by
  have hw := workingLen_hint S trace k hk hk1 hkS
  refine ⟨_, _, pctArrayNew opts.calcType S k,
    calcTransform_path host trace opts p S hen ht hS, by simp [hw], ?_, by simp [hw], ?_, ?_⟩
  · exact length_pctArrayNew _ _ _ hk1
  · intro j hj
    rw [← pctArrayNew_take _ _ _ hk1]
    exact read_pctArrayNew _ _ _ _ hk1 hj
  · intro S2 h2
    have hk2 : k ≤ S2.length := by
      have h3 := congrArg List.length h2
      simp only [List.length_take] at h3
      omega
    have hw2 : workingLen S2
        { trace with props := fun q => if q = p then some S2 else trace.props q } = k :=
      workingLen_hint S2 _ k hk hk1 hk2
    refine ⟨_, _, calcTransform_path host _ opts p S2 hen ht (by simp), ?_⟩
    simp only [hw2, if_true]
    rw [← pctArrayNew_take _ S2 _ hk1, h2, pctArrayNew_take _ S _ hk1]

theorem calcTransform_clamp_witness :
    (sampleOpts "prev").enabled = true ∧ (sampleTrace S5 (some 3))._length = some 3 ∧
    3 ≤ S5.length ∧
    ∃ trace1 opts1 W,
      calcTransform sampleHost (sampleTrace S5 (some 3)) (sampleOpts "prev")
        = .ok (trace1, opts1) ∧
      trace1.props "x" = some W ∧
      W.length = 3 ∧
      trace1._length = some 3 ∧
      (∀ j, j < 3 → W.read j = some (pctValue (sampleOpts "prev").calcType (S5.take 3) j)) ∧
      (∀ S2 : JSArray Num, S2.take 3 = S5.take 3 →
        ∃ trace2 opts2,
          calcTransform sampleHost
            { sampleTrace S5 (some 3) with
              props := fun q => if q = "x" then some S2 else (sampleTrace S5 (some 3)).props q }
            (sampleOpts "prev")
            = .ok (trace2, opts2) ∧
          trace2.props "x" = some W) :=
  ⟨rfl, rfl, by decide,
    calcTransform_clamp sampleHost (sampleTrace S5 (some 3)) (sampleOpts "prev") "x" S5 3 rfl rfl
      (by simp [sampleTrace]) rfl (by decide) (by decide)⟩

/-- C7: after `calcTransform` runs with enabled options and a resolved target path, the
map stored in `opts._indexToPoints` has exactly the keys `0, 1, ..., len-1`, each once and
in this order, and the value at key `i` is the upstream points accessor applied to `i`. -/
theorem calcTransform_indexToPoints (host : Host) (trace : Trace) (opts : TransformOpts)
    (p : String) (S : JSArray Num) (hen : opts.enabled = true)
    (ht : opts.target = some (.path p)) (hS : trace.props p = some S) :
    ∃ trace1 opts1 m, calcTransform host trace opts = .ok (trace1, opts1) ∧
      opts1._indexToPoints = some m ∧
      m.keys = List.range (workingLen S trace) ∧
      m.keys.Nodup ∧
      (∀ i, i ∈ m.keys ↔ i < workingLen S trace) ∧
      ∀ i, i < workingLen S trace →
        m.get i = some (host.pointsAccessorFunction trace.transforms opts (some i)) := by
  have hkeys : IndexMap.keys ((List.range (workingLen S trace)).map
      (fun i => (i, host.pointsAccessorFunction trace.transforms opts (some i))))
      = List.range (workingLen S trace) := by
    simp [IndexMap.keys, Function.comp_def]
  refine ⟨_, _, _, calcTransform_path host trace opts p S hen ht hS, rfl, hkeys, ?_, ?_, ?_⟩
  · rw [hkeys]; exact List.nodup_range _
  · intro i; rw [hkeys]; exact List.mem_range
  · intro i hi
    exact lookup_range_map _ _ i hi

theorem calcTransform_indexToPoints_witness :
    (sampleOpts "first").enabled = true ∧
    ∃ trace1 opts1 m,
      calcTransform sampleHost (sampleTrace S3 none) (sampleOpts "first")
        = .ok (trace1, opts1) ∧
      opts1._indexToPoints = some m ∧
      m.keys = List.range (workingLen S3 (sampleTrace S3 none)) ∧
      m.keys.Nodup ∧
      (∀ i, i ∈ m.keys ↔ i < workingLen S3 (sampleTrace S3 none)) ∧
      ∀ i, i < workingLen S3 (sampleTrace S3 none) →
        m.get i = some (sampleHost.pointsAccessorFunction (sampleTrace S3 none).transforms
          (sampleOpts "first") (some i)) :=
  ⟨rfl,
    calcTransform_indexToPoints sampleHost (sampleTrace S3 none) (sampleOpts "first") "x" S3
      rfl rfl (by simp [sampleTrace])⟩

theorem tmpIndex_unknown (calcType : Option String) (h1 : calcType ≠ some "first")
    (h2 : calcType ≠ some "prev") (j : Nat) : tmpIndex calcType j = 0 := by
  simp [tmpIndex, h1, h2]

theorem pctArrayNew_unknown (calcType : Option String) (h1 : calcType ≠ some "first")
    (h2 : calcType ≠ some "prev") (S : JSArray Num) (len : Nat) :
    pctArrayNew calcType S len = pctArrayNew (some "first") S len := by
  have h : tmpIndex calcType = tmpIndex (some "first") := by
    funext j
    rw [tmpIndex_unknown calcType h1 h2 j]
    simp [tmpIndex]
  simp only [pctArrayNew, h]

/-- C8: for a `calcType` that is neither `first` nor `prev` the baseline index is 0 for
every `j`, and `calcTransform` gives the same outcome as with `calcType` `first` on the
same trace: the same trace afterwards (written array and `_length`) and the same index
map, the upstream points accessor being the same for both option records. -/
theorem calcTransform_unknown_calcType (host : Host) (trace : Trace) (opts : TransformOpts)
    (h1 : opts.calcType ≠ some "first") (h2 : opts.calcType ≠ some "prev")
    (hacc : host.pointsAccessorFunction trace.transforms opts
      = host.pointsAccessorFunction trace.transforms { opts with calcType := some "first" }) :
    (∀ j, tmpIndex opts.calcType j = 0) ∧
    (calcTransform host trace opts).map (fun r => (r.1, r.2._indexToPoints))
      = (calcTransform host trace { opts with calcType := some "first" }).map
          (fun r => (r.1, r.2._indexToPoints)) := by
  refine ⟨tmpIndex_unknown opts.calcType h1 h2, ?_⟩
  rcases opts with ⟨en, tg, ct, ix⟩
  simp only at h1 h2 hacc ⊢
  cases en with
  | false =>
    rw [calcTransform_skip_disabled host trace _ rfl,
      calcTransform_skip_disabled host trace _ rfl]
    rfl
  | true =>
    match tg with
    | none =>
      rw [calcTransform_skip_unresolved host trace ⟨true, none, ct, ix⟩ rfl,
        calcTransform_skip_unresolved host trace ⟨true, none, some "first", ix⟩ rfl]
      rfl
    | some (.array a) =>
      simp [calcTransform, getTargetArray, getIndices_eq, nestedProperty, Except.map]
    | some (.path p) =>
      cases hS : trace.props p with
      | none =>
        rw [calcTransform_skip_unresolved host trace _ (by simp [getTargetArray, hS]),
          calcTransform_skip_unresolved host trace _ (by simp [getTargetArray, hS])]
        rfl
      | some S =>
        rw [calcTransform_path host trace _ p S rfl rfl hS,
          calcTransform_path host trace _ p S rfl rfl hS]
        simp only [Except.map, hacc, pctArrayNew_unknown ct h1 h2]

theorem calcTransform_unknown_calcType_witness :
    (sampleOpts "median").calcType ≠ some "first" ∧
    (sampleOpts "median").calcType ≠ some "prev" ∧
    (∀ j, tmpIndex (sampleOpts "median").calcType j = 0) ∧
    (calcTransform sampleHost (sampleTrace S3 none) (sampleOpts "median")).map
        (fun r => (r.1, r.2._indexToPoints))
      = (calcTransform sampleHost (sampleTrace S3 none)
          { sampleOpts "median" with calcType := some "first" }).map
          (fun r => (r.1, r.2._indexToPoints)) :=
  ⟨by decide, by decide,
    calcTransform_unknown_calcType sampleHost (sampleTrace S3 none) (sampleOpts "median")
      (by decide) (by decide) rfl⟩

theorem pctArrayNew_S3_first :
    pctArrayNew (some "first") S3 3
      = [some (Num.fin 0), some (Num.fin (1 / 2)), some (Num.fin (2 / 3))] := by
  simp [pctArrayNew, newArray, JSArray.write, JSArray.read, forLoop, toNumber, tmpIndex, S3,
    Num.sub, Num.div, List.replicate]
  norm_num

theorem pctArrayNew_S3_prev :
    pctArrayNew (some "prev") S3 3
      = [some (Num.fin 0), some (Num.fin (1 / 2)), some (Num.fin (1 / 3))] := by
  simp [pctArrayNew, newArray, JSArray.write, JSArray.read, forLoop, toNumber, tmpIndex, S3,
    Num.sub, Num.div, List.replicate]
  norm_num

/-- C9 (counterexample): for `S = [10, 20, 30]` and `calcType` `first` the written array
is not `[0, 1, 2]`. -/
theorem calcTransform_example_first_counterexample :
    ∃ trace1 opts1,
      calcTransform sampleHost (sampleTrace S3 none) (sampleOpts "first")
        = .ok (trace1, opts1) ∧
      trace1.props "x" ≠ some [some (Num.fin 0), some (Num.fin 1), some (Num.fin 2)] := by
  have hw : workingLen S3 (sampleTrace S3 none) = 3 := by decide
  refine ⟨_, _, calcTransform_path sampleHost (sampleTrace S3 none) (sampleOpts "first") "x" S3
      rfl rfl (by simp [sampleTrace]), ?_⟩
  simp only [if_true, hw, sampleOpts, pctArrayNew_S3_first]
  norm_num

/-- C9 (amended): for `S = [10, 20, 30]` and `calcType` `first` (no length hint),
`calcTransform` writes `[0, 1/2, 2/3]` to the target. -/
theorem calcTransform_example_first :
    ∃ trace1 opts1,
      calcTransform sampleHost (sampleTrace S3 none) (sampleOpts "first")
        = .ok (trace1, opts1) ∧
      trace1.props "x" = some [some (Num.fin 0), some (Num.fin (1 / 2)), some (Num.fin (2 / 3))] := by
  have hw : workingLen S3 (sampleTrace S3 none) = 3 := by decide
  refine ⟨_, _, calcTransform_path sampleHost (sampleTrace S3 none) (sampleOpts "first") "x" S3
      rfl rfl (by simp [sampleTrace]), ?_⟩
  simp only [if_true, hw, sampleOpts, pctArrayNew_S3_first]

/-- C10: for `S = [10, 20, 30]` and `calcType` `prev` (no length hint), `calcTransform`
writes `[0, 1/2, 1/3]` to the target: element 1 is `(20-10)/20`, element 2 is
`(30-20)/30`. -/
theorem calcTransform_example_prev :
    ∃ trace1 opts1,
      calcTransform sampleHost (sampleTrace S3 none) (sampleOpts "prev")
        = .ok (trace1, opts1) ∧
      trace1.props "x" = some [some (Num.fin 0), some (Num.fin (1 / 2)), some (Num.fin (1 / 3))] ∧
      Num.fin (1 / 2) = Num.div (Num.sub (Num.fin 20) (Num.fin 10)) (Num.fin 20) ∧
      Num.fin (1 / 3) = Num.div (Num.sub (Num.fin 30) (Num.fin 20)) (Num.fin 30) := by
  have hw : workingLen S3 (sampleTrace S3 none) = 3 := by decide
  refine ⟨_, _, calcTransform_path sampleHost (sampleTrace S3 none) (sampleOpts "prev") "x" S3
      rfl rfl (by simp [sampleTrace]), ?_, ?_, ?_⟩
  · simp only [if_true, hw, sampleOpts, pctArrayNew_S3_prev]
  · simp [Num.sub, Num.div]; norm_num
  · simp [Num.sub, Num.div]; norm_num

theorem pctArrayNew_rerun :
    pctArrayNew (some "first")
        [some (Num.fin 0), some (Num.fin (1 / 2)), some (Num.fin (2 / 3))] 3
      = [some (Num.fin 0), some (Num.fin 1), some (Num.fin 1)] := by
  simp [pctArrayNew, newArray, JSArray.write, JSArray.read, forLoop, toNumber, tmpIndex,
    Num.sub, Num.div, List.replicate]

/-- C11: `calcTransform` is not idempotent: on `S = [10, 20, 30]` with `calcType` `first`
the first run writes `[0, 1/2, 2/3]`, and a second run on the trace and options left by
the first run writes `[0, 1, 1]`, a different array. -/
theorem calcTransform_not_idempotent :
    ∃ trace1 opts1 trace2 opts2,
      calcTransform sampleHost (sampleTrace S3 none) (sampleOpts "first")
        = .ok (trace1, opts1) ∧
      calcTransform sampleHost trace1 opts1 = .ok (trace2, opts2) ∧
      trace1.props "x" = some [some (Num.fin 0), some (Num.fin (1 / 2)), some (Num.fin (2 / 3))] ∧
      trace2.props "x" = some [some (Num.fin 0), some (Num.fin 1), some (Num.fin 1)] ∧
      trace2.props "x" ≠ trace1.props "x" := by
  have hw : workingLen S3 (sampleTrace S3 none) = 3 := by decide
  have h1 := calcTransform_path sampleHost (sampleTrace S3 none) (sampleOpts "first") "x" S3
    rfl rfl (by simp [sampleTrace])
  have hp1 : pctArrayNew (sampleOpts "first").calcType S3 3
      = [some (Num.fin 0), some (Num.fin (1 / 2)), some (Num.fin (2 / 3))] :=
    pctArrayNew_S3_first
  rw [hw, hp1] at h1
  have h2 := calcTransform_path sampleHost _ _ "x"
    [some (Num.fin 0), some (Num.fin (1 / 2)), some (Num.fin (2 / 3))]
    (rfl : ({ sampleOpts "first" with _indexToPoints := some ((List.range 3).map
        (fun i => (i, sampleHost.pointsAccessorFunction (sampleTrace S3 none).transforms
          (sampleOpts "first") (some i)))) } : TransformOpts).enabled = true)
    rfl
    (show ({ props := fun q =>
              if q = "x" then
                some [some (Num.fin 0), some (Num.fin (1 / 2)), some (Num.fin (2 / 3))]
              else (sampleTrace S3 none).props q
             _length := some 3
             transforms := (sampleTrace S3 none).transforms } : Trace).props "x" = _ by simp)
  have hw2 : workingLen [some (Num.fin 0), some (Num.fin (1 / 2)), some (Num.fin (2 / 3))]
      ({ props := fun q =>
              if q = "x" then
                some [some (Num.fin 0), some (Num.fin (1 / 2)), some (Num.fin (2 / 3))]
              else (sampleTrace S3 none).props q
         _length := some 3
         transforms := (sampleTrace S3 none).transforms } : Trace) = 3 := by
    simp [workingLen]
  have hp2 : pctArrayNew (sampleOpts "first").calcType
      [some (Num.fin 0), some (Num.fin (1 / 2)), some (Num.fin (2 / 3))] 3
      = [some (Num.fin 0), some (Num.fin 1), some (Num.fin 1)] :=
    pctArrayNew_rerun
  rw [hw2, hp2] at h2
  refine ⟨_, _, _, _, h1, h2, by simp, by simp, ?_⟩
  simp only [if_true]
  norm_num

theorem Lib.coerce_enabled (transformIn : Obj) :
    Lib.coerce transformIn [] attributes "enabled" none
      = (transformIn, [("enabled", coerceValue
            { valType := "boolean", strict := false, noBlank := false, arrayOk := false,
              dflt := .bool true } (transformIn.get "enabled") (.bool true))],
          coerceValue
            { valType := "boolean", strict := false, noBlank := false, arrayOk := false,
              dflt := .bool true } (transformIn.get "enabled") (.bool true)) := by
  simp [Lib.coerce, attributes, List.lookup, Obj.set]

/-- C12: for every raw record whose `enabled` coerces to `false`, `supplyDefaults` returns
a record that holds the field `enabled` only, with value `false`: `target` and `calcType`
are absent from it whatever the raw record supplies, and the raw record is the same after
the call. -/
theorem supplyDefaults_disabled (transformIn : Obj)
    (hen : (Lib.coerce transformIn [] attributes "enabled" none).2.2 = .bool false) :
    (supplyDefaults transformIn).2 = [("enabled", .bool false)] ∧
    (supplyDefaults transformIn).2.keys = ["enabled"] ∧
    (supplyDefaults transformIn).2.get "target" = .undefined ∧
    (supplyDefaults transformIn).2.get "calcType" = .undefined ∧
    (supplyDefaults transformIn).1 = transformIn := by
  have h : supplyDefaults transformIn = (transformIn, [("enabled", .bool false)]) := by
    rw [Lib.coerce_enabled] at hen
    simp only at hen
    simp only [supplyDefaults, Lib.coerce_enabled, hen, Value.truthy]
    rfl
  rw [h]
  simp [Obj.keys, Obj.get, List.lookup]

theorem supplyDefaults_disabled_witness :
    (Lib.coerce rawDisabled [] attributes "enabled" none).2.2 = .bool false ∧
    (supplyDefaults rawDisabled).2 = [("enabled", .bool false)] ∧
    (supplyDefaults rawDisabled).2.keys = ["enabled"] ∧
    (supplyDefaults rawDisabled).2.get "target" = .undefined ∧
    (supplyDefaults rawDisabled).2.get "calcType" = .undefined ∧
    (supplyDefaults rawDisabled).1 = rawDisabled :=
  ⟨by decide, supplyDefaults_disabled rawDisabled (by decide)⟩

theorem supplyDefaults_enabled (transformIn : Obj)
    (hen : (Lib.coerce transformIn [] attributes "enabled" none).2.2 = .bool true) :
    supplyDefaults transformIn
      = (transformIn,
          [("enabled", .bool true),
           ("target", coerceValue
              { valType := "string", strict := true, noBlank := true, arrayOk := true,
                dflt := .string "x" } (transformIn.get "target") (.string "x")),
           ("calcType", coerceValue
              { valType := "string", strict := true, noBlank := true, arrayOk := true,
                dflt := .string "first" } (transformIn.get "calcType") (.string "first"))]) := by
  rw [Lib.coerce_enabled] at hen
  simp only at hen
  simp only [supplyDefaults, Lib.coerce_enabled, hen, Value.truthy]
  simp [Lib.coerce, attributes, List.lookup, Obj.set]

/-- C13: for every raw record whose `enabled` coerces to `true`: when it supplies neither
`target` nor `calcType` the resolved record is exactly `{enabled: true, target: "x",
calcType: "first"}`; and a non-blank string `calcType`, recognised or not, is copied to the
resolved record as it is.  The function is total: no error is raised. -/
theorem supplyDefaults_defaults (transformIn : Obj)
    (hen : (Lib.coerce transformIn [] attributes "enabled" none).2.2 = .bool true) :
    (transformIn.get "target" = .undefined → transformIn.get "calcType" = .undefined →
      (supplyDefaults transformIn).2
        = [("enabled", .bool true), ("target", .string "x"), ("calcType", .string "first")]) ∧
    (∀ s : String, s ≠ "" → transformIn.get "calcType" = .string s →
      (supplyDefaults transformIn).2.get "calcType" = .string s) := by
  rw [supplyDefaults_enabled transformIn hen]
  constructor
  · intro ht hc
    simp [ht, hc, coerceValue]
  · intro s hs hc
    rw [hc]
    simp [coerceValue, hs, Obj.get, List.lookup]

theorem supplyDefaults_defaults_witness :
    (Lib.coerce rawMedian [] attributes "enabled" none).2.2 = .bool true ∧
    (rawMedian.get "target" = .undefined → rawMedian.get "calcType" = .undefined →
      (supplyDefaults rawMedian).2
        = [("enabled", .bool true), ("target", .string "x"), ("calcType", .string "first")]) ∧
    (∀ s : String, s ≠ "" → rawMedian.get "calcType" = .string s →
      (supplyDefaults rawMedian).2.get "calcType" = .string s) :=
  ⟨by decide, supplyDefaults_defaults rawMedian (by decide)⟩

/-- C14 (counterexample): for `S = [0, 5]` and `calcType` `first` the written element 0
is `0`, while the formula `(S[0] - S[0]) / S[0]` is `0 / 0`, that is `NaN`. -/
theorem calcTransform_baseline_counterexample :
    ∃ trace1 opts1 W,
      calcTransform sampleHost (sampleTrace S05 none) (sampleOpts "first")
        = .ok (trace1, opts1) ∧
      trace1.props "x" = some W ∧
      W.read 0 = some (Num.fin 0) ∧
      Num.div (Num.sub (toNumber (S05.read 0)) (toNumber (S05.read 0))) (toNumber (S05.read 0))
        = Num.nan ∧
      W.read 0 ≠ some (Num.div (Num.sub (toNumber (S05.read 0)) (toNumber (S05.read 0)))
        (toNumber (S05.read 0))) := by
  have hw : workingLen S05 (sampleTrace S05 none) = 2 := by decide
  have hf : Num.div (Num.sub (toNumber (S05.read 0)) (toNumber (S05.read 0)))
      (toNumber (S05.read 0)) = Num.nan := by
    simp [S05, JSArray.read, toNumber, Num.sub, Num.div]
  have hr : JSArray.read (pctArrayNew (sampleOpts "first").calcType S05 2) 0
      = some (Num.fin 0) := by
    rw [read_pctArrayNew _ _ _ _ (by decide) (by decide)]
    simp [pctValue]
  refine ⟨_, _, pctArrayNew (sampleOpts "first").calcType S05 2,
    calcTransform_path sampleHost (sampleTrace S05 none) (sampleOpts "first") "x" S05
      rfl rfl (by simp [sampleTrace]), by simp [hw], hr, hf, ?_⟩
  rw [hr, hf]
  simp

/-- C14 (amended): for `calcType` `first` and a working length `len ≥ 1`, the written
element 0 is `0` and the formula `(S[j] - S[0]) / S[j]` gives the written element at every
`1 ≤ j < len`, and also at `j = 0` when `S[0]` is a finite number other than 0. -/
theorem calcTransform_first_formula (host : Host) (trace : Trace) (opts : TransformOpts)
    (p : String) (S : JSArray Num) (hen : opts.enabled = true)
    (ht : opts.target = some (.path p)) (hS : trace.props p = some S)
    (hct : opts.calcType = some "first") (hlen : 1 ≤ workingLen S trace) :
    ∃ trace1 opts1 W, calcTransform host trace opts = .ok (trace1, opts1) ∧
      trace1.props p = some W ∧
      W.read 0 = some (Num.fin 0) ∧
      ∀ j, j < workingLen S trace →
        (j = 0 → ∃ q : ℚ, q ≠ 0 ∧ S.read 0 = some (Num.fin q)) →
        W.read j = some (Num.div (Num.sub (toNumber (S.read j)) (toNumber (S.read 0)))
          (toNumber (S.read j))) := by
  refine ⟨_, _, pctArrayNew opts.calcType S (workingLen S trace),
    calcTransform_path host trace opts p S hen ht hS, by simp, ?_, ?_⟩
  · rw [read_pctArrayNew _ _ _ _ hlen (by omega)]
    simp [pctValue]
  · intro j hj h0
    rw [read_pctArrayNew _ _ _ _ hlen hj]
    by_cases hj0 : j = 0
    · obtain ⟨q, hq, hq0⟩ := h0 hj0
      subst hj0
      simp [pctValue, hq0, toNumber, Num.sub, Num.div, hq]
    · simp [pctValue, hj0, tmpIndex, hct]

theorem calcTransform_first_formula_witness :
    (sampleOpts "first").enabled = true ∧ 1 ≤ workingLen S3 (sampleTrace S3 none) ∧
    ∃ trace1 opts1 W,
      calcTransform sampleHost (sampleTrace S3 none) (sampleOpts "first")
        = .ok (trace1, opts1) ∧
      trace1.props "x" = some W ∧
      W.read 0 = some (Num.fin 0) ∧
      ∀ j, j < workingLen S3 (sampleTrace S3 none) →
        (j = 0 → ∃ q : ℚ, q ≠ 0 ∧ S3.read 0 = some (Num.fin q)) →
        W.read j = some (Num.div (Num.sub (toNumber (S3.read j)) (toNumber (S3.read 0)))
          (toNumber (S3.read j))) :=
  ⟨rfl, by decide,
    calcTransform_first_formula sampleHost (sampleTrace S3 none) (sampleOpts "first") "x" S3
      rfl rfl (by simp [sampleTrace]) rfl (by decide)⟩

/-- C15: `getIndices` returns, for every `len` and every `targetArray` (whatever `opts`
and `d2c`), the array `[0, 1, ..., len-1]`, and does not throw. -/
theorem getIndices_identity (opts : TransformOpts) (targetArray : JSArray Num)
    (d2c : Num → Num) (len : Nat) :
    getIndices opts targetArray d2c len = .ok ((List.range len).map some) :=
  getIndices_eq opts targetArray d2c len

theorem workingLen_le (S : JSArray Num) (trace : Trace) : workingLen S trace ≤ S.length := by
  unfold workingLen
  simp only
  split
  · split
    · exact Nat.min_le_left _ _
    · exact Nat.le_refl _
  · exact Nat.le_refl _

/-- C16: every index read by the calculation loop is a position of the source array:
for `1 ≤ j < len`, with `len` the working length for any `_length`, both `j` and the
baseline index chosen for any `calcType` are below the source length, so both reads
find a slot of the array. -/
theorem calcTransform_reads_in_bounds (S : JSArray Num) (trace : Trace)
    (calcType : Option String) (j : Nat) (_h1 : 1 ≤ j) (h2 : j < workingLen S trace) :
    j < S.length ∧ tmpIndex calcType j < S.length ∧
    (S[j]?).isSome = true ∧ (S[tmpIndex calcType j]?).isSome = true := by
  have hle := workingLen_le S trace
  have ht := tmpIndex_le calcType j
  have hj : j < S.length := by omega
  have hb : tmpIndex calcType j < S.length := by omega
  refine ⟨hj, hb, ?_, ?_⟩
  · simp [List.getElem?_eq_getElem hj]
  · simp [List.getElem?_eq_getElem hb]

theorem calcTransform_reads_in_bounds_witness :
    1 ≤ 2 ∧ 2 < workingLen S5 (sampleTrace S5 (some 3)) ∧
    2 < S5.length ∧ tmpIndex (some "prev") 2 < S5.length ∧
    (S5[2]?).isSome = true ∧ (S5[tmpIndex (some "prev") 2]?).isSome = true :=
  ⟨by decide, by decide,
    calcTransform_reads_in_bounds S5 (sampleTrace S5 (some 3)) (some "prev") 2
      (by decide) (by decide)⟩

/-- C17: `calcTransform` either returns, and then `opts.enabled`, `opts.target`,
`opts.calcType`, `trace.transforms` and every trace field other than the one addressed by
`opts.target` are as before (only the target field, `_length` and `_indexToPoints` may
differ), or it stops at `Lib.nestedProperty` on a target that is a literal array, before
any assignment. -/
theorem calcTransform_frame (host : Host) (trace : Trace) (opts : TransformOpts) :
    (∃ trace1 opts1, calcTransform host trace opts = .ok (trace1, opts1) ∧
      opts1.enabled = opts.enabled ∧ opts1.target = opts.target ∧
      opts1.calcType = opts.calcType ∧ trace1.transforms = trace.transforms ∧
      ∀ q, opts.target ≠ some (.path q) → trace1.props q = trace.props q) ∨
    (∃ a, opts.enabled = true ∧ opts.target = some (.array a) ∧
      calcTransform host trace opts = .error "bad property string") := by
  rcases opts with ⟨en, tg, ct, ix⟩
  cases en with
  | false =>
    exact Or.inl ⟨_, _, calcTransform_skip_disabled host trace _ rfl, rfl, rfl, rfl, rfl,
      fun _ _ => rfl⟩
  | true =>
    match tg with
    | none =>
      exact Or.inl ⟨_, _, calcTransform_skip_unresolved host trace ⟨true, none, ct, ix⟩ rfl,
        rfl, rfl, rfl, rfl, fun _ _ => rfl⟩
    | some (.array a) =>
      refine Or.inr ⟨a, rfl, rfl, ?_⟩
      simp [calcTransform, getTargetArray, getIndices_eq, nestedProperty]
    | some (.path p) =>
      cases hS : trace.props p with
      | none =>
        exact Or.inl ⟨_, _, calcTransform_skip_unresolved host trace _
          (by simp [getTargetArray, hS]), rfl, rfl, rfl, rfl, fun _ _ => rfl⟩
      | some S =>
        refine Or.inl ⟨_, _, calcTransform_path host trace _ p S rfl rfl hS, rfl, rfl, rfl,
          rfl, ?_⟩
        intro q hq
        have hqp : q ≠ p := by
          intro h
          exact hq (by rw [h])
        simp [hqp]

theorem read_scaleArray (k : ℚ) (S : JSArray Num) (j : Nat) :
    toNumber (JSArray.read (scaleArray k S) j) = Num.mul (.fin k) (toNumber (S.read j)) := by
  unfold JSArray.read scaleArray
  rw [List.getElem?_map]
  cases h : S[j]? with
  | none => simp [toNumber, Num.mul]
  | some x =>
    cases x with
    | none => simp [toNumber, Num.mul]
    | some y => simp [toNumber]

theorem Num.scale_pct (k : ℚ) (hk : k ≠ 0) (a b : Num) (ha : a ≠ .fin 0) :
    Num.div (Num.sub (Num.mul (.fin k) a) (Num.mul (.fin k) b)) (Num.mul (.fin k) a)
      = Num.div (Num.sub a b) a := by
  rcases lt_or_gt_of_ne hk with hneg | hpos
  · have hk0 : ¬ (0 < k) := not_lt.mpr hneg.le
    cases a with
    | fin x =>
      have hx : x ≠ 0 := fun h => ha (by rw [h])
      have hkx : k * x ≠ 0 := mul_ne_zero hk hx
      cases b with
      | fin y =>
        simp only [Num.mul, Num.sub, Num.div, hkx, hx, if_false]
        congr 1
        field_simp
        ring
      | posInf =>
        simp only [Num.mul, Num.sub, Num.div, hk, hk0, if_false]
        by_cases h0 : 0 ≤ x
        · have : ¬ (0 ≤ k * x) := by
            have hxpos : 0 < x := lt_of_le_of_ne h0 (Ne.symm hx)
            exact not_le.mpr (mul_neg_of_neg_of_pos hneg hxpos)
          simp [h0, this]
        · have : 0 ≤ k * x := (mul_pos_of_neg_of_neg hneg (not_le.mp h0)).le
          simp [h0, this]
      | negInf =>
        simp only [Num.mul, Num.sub, Num.div, hk, hk0, if_false]
        by_cases h0 : 0 ≤ x
        · have : ¬ (0 ≤ k * x) := by
            have hxpos : 0 < x := lt_of_le_of_ne h0 (Ne.symm hx)
            exact not_le.mpr (mul_neg_of_neg_of_pos hneg hxpos)
          simp [h0, this]
        · have : 0 ≤ k * x := (mul_pos_of_neg_of_neg hneg (not_le.mp h0)).le
          simp [h0, this]
      | nan => simp [Num.mul, Num.sub, Num.div]
    | posInf => cases b <;> simp [Num.mul, Num.sub, Num.div, hk, hk0]
    | negInf => cases b <;> simp [Num.mul, Num.sub, Num.div, hk, hk0]
    | nan => cases b <;> simp [Num.mul, Num.sub, Num.div]
  · cases a with
    | fin x =>
      have hx : x ≠ 0 := fun h => ha (by rw [h])
      have hkx : k * x ≠ 0 := mul_ne_zero hk hx
      cases b with
      | fin y =>
        simp only [Num.mul, Num.sub, Num.div, hkx, hx, if_false]
        congr 1
        field_simp
        ring
      | posInf =>
        simp only [Num.mul, Num.sub, Num.div, hk, hpos, if_false, if_true]
        by_cases h0 : 0 ≤ x
        · have : 0 ≤ k * x := mul_nonneg hpos.le h0
          simp [h0, this]
        · have : ¬ (0 ≤ k * x) := not_le.mpr (mul_neg_of_pos_of_neg hpos (not_le.mp h0))
          simp [h0, this]
      | negInf =>
        simp only [Num.mul, Num.sub, Num.div, hk, hpos, if_false, if_true]
        by_cases h0 : 0 ≤ x
        · have : 0 ≤ k * x := mul_nonneg hpos.le h0
          simp [h0, this]
        · have : ¬ (0 ≤ k * x) := not_le.mpr (mul_neg_of_pos_of_neg hpos (not_le.mp h0))
          simp [h0, this]
      | nan => simp [Num.mul, Num.sub, Num.div]
    | posInf => cases b <;> simp [Num.mul, Num.sub, Num.div, hk, hpos]
    | negInf => cases b <;> simp [Num.mul, Num.sub, Num.div, hk, hpos]
    | nan => cases b <;> simp [Num.mul, Num.sub, Num.div]

theorem pctValue_scale (calcType : Option String) (k : ℚ) (hk : k ≠ 0) (S : JSArray Num)
    (j : Nat) (hj : j ≠ 0 → toNumber (S.read j) ≠ .fin 0) :
    pctValue calcType (scaleArray k S) j = pctValue calcType S j := by
  unfold pctValue
  by_cases h0 : j = 0
  · simp [h0]
  · simp only [h0, if_false, read_scaleArray]
    exact Num.scale_pct k hk _ _ (hj h0)

theorem pctArrayNew_scale (calcType : Option String) (k : ℚ) (hk : k ≠ 0) (S : JSArray Num)
    (len : Nat) (hS : ∀ j, 1 ≤ j → j < len → toNumber (S.read j) ≠ .fin 0) :
    pctArrayNew calcType (scaleArray k S) len = pctArrayNew calcType S len := by
  rcases Nat.eq_zero_or_pos len with h0 | hpos
  · subst h0
    rw [pctArrayNew_zero, pctArrayNew_zero]
  · rw [pctArrayNew_eq _ _ _ hpos, pctArrayNew_eq _ _ _ hpos]
    apply List.map_congr_left
    intro j hj
    rw [pctValue_scale calcType k hk S j
      (fun h => hS j (Nat.pos_of_ne_zero h) (List.mem_range.mp hj))]

theorem workingLen_scale (k : ℚ) (S : JSArray Num) (trace : Trace) (props : String → Option (JSArray Num)) :
    workingLen (scaleArray k S) { trace with props := props } = workingLen S trace := by
  simp [workingLen, scaleArray]

/-- C18: scale invariance.  For every source `S`, every finite constant `k ≠ 0` and every
`calcType`, when no element `S[j]` with `1 ≤ j < len` is zero, `calcTransform` writes the
same array for the source `k * S` as for `S`. -/
theorem calcTransform_scale_invariant (host : Host) (trace : Trace) (opts : TransformOpts)
    (p : String) (S : JSArray Num) (k : ℚ) (hen : opts.enabled = true)
    (ht : opts.target = some (.path p)) (hS : trace.props p = some S) (hk : k ≠ 0)
    (hnz : ∀ j, 1 ≤ j → j < workingLen S trace → toNumber (S.read j) ≠ .fin 0) :
    ∃ trace1 opts1 trace2 opts2 W,
      calcTransform host trace opts = .ok (trace1, opts1) ∧
      calcTransform host
        { trace with props := fun q => if q = p then some (scaleArray k S) else trace.props q }
        opts = .ok (trace2, opts2) ∧
      trace1.props p = some W ∧ trace2.props p = some W := by
  refine ⟨_, _, _, _, pctArrayNew opts.calcType S (workingLen S trace),
    calcTransform_path host trace opts p S hen ht hS,
    calcTransform_path host _ opts p (scaleArray k S) hen ht (by simp), by simp, ?_⟩
  simp only [if_true, workingLen_scale]
  rw [pctArrayNew_scale opts.calcType k hk S _ hnz]

theorem calcTransform_scale_invariant_witness :
    (sampleOpts "prev").enabled = true ∧ (3 : ℚ) ≠ 0 ∧
    (∀ j, 1 ≤ j → j < workingLen S05 (sampleTrace S05 none) →
      toNumber (S05.read j) ≠ .fin 0) ∧
    ∃ trace1 opts1 trace2 opts2 W,
      calcTransform sampleHost (sampleTrace S05 none) (sampleOpts "prev")
        = .ok (trace1, opts1) ∧
      calcTransform sampleHost
        { sampleTrace S05 none with
          props := fun q =>
            if q = "x" then some (scaleArray 3 S05) else (sampleTrace S05 none).props q }
        (sampleOpts "prev") = .ok (trace2, opts2) ∧
      trace1.props "x" = some W ∧ trace2.props "x" = some W := by
  have hnz : ∀ j, 1 ≤ j → j < workingLen S05 (sampleTrace S05 none) →
      toNumber (S05.read j) ≠ .fin 0 := by
    intro j h1 h2
    have hw : workingLen S05 (sampleTrace S05 none) = 2 := by decide
    have hj : j = 1 := by omega
    subst hj
    simp [S05, JSArray.read, toNumber]
  exact ⟨rfl, by norm_num, hnz,
    calcTransform_scale_invariant sampleHost (sampleTrace S05 none) (sampleOpts "prev") "x"
      S05 3 rfl rfl (by simp [sampleTrace]) (by norm_num) hnz⟩

theorem pctValue_lt_one (calcType : Option String) (S : JSArray Num) (len j : Nat)
    (hj : j < len) (hpos : ∀ i, i < len → ∃ q : ℚ, 0 < q ∧ S.read i = some (Num.fin q)) :
    ∃ q : ℚ, pctValue calcType S j = Num.fin q ∧ q < 1 := by
  unfold pctValue
  by_cases h0 : j = 0
  · exact ⟨0, by simp [h0], by norm_num⟩
  · obtain ⟨a, ha, hra⟩ := hpos j hj
    obtain ⟨b, hb, hrb⟩ := hpos (tmpIndex calcType j)
      (Nat.lt_of_le_of_lt (tmpIndex_le calcType j) hj)
    refine ⟨(a - b) / a, ?_, ?_⟩
    · simp [h0, hra, hrb, toNumber, Num.sub, Num.div, ha.ne']
    · rw [div_lt_one ha]
      linarith

/-- C19 (counterexample): the elements of the source `[1, Infinity]` are strictly
positive (`0 < x` holds for both), and for `first` and for `prev` the written element 1 is
`(Infinity - 1) / Infinity`, that is `NaN`, which is not less than 1. -/
theorem calcTransform_lt_one_counterexample :
    (∀ x ∈ SInf, Num.lt (.fin 0) (toNumber x) = true) ∧
    (∃ trace1 opts1 W,
      calcTransform sampleHost (sampleTrace SInf none) (sampleOpts "first")
        = .ok (trace1, opts1) ∧
      trace1.props "x" = some W ∧ W.read 1 = some Num.nan) ∧
    (∃ trace1 opts1 W,
      calcTransform sampleHost (sampleTrace SInf none) (sampleOpts "prev")
        = .ok (trace1, opts1) ∧
      trace1.props "x" = some W ∧ W.read 1 = some Num.nan) ∧
    Num.lt Num.nan (.fin 1) = false := by
  have hw : workingLen SInf (sampleTrace SInf none) = 2 := by decide
  refine ⟨?_, ⟨_, _, pctArrayNew (sampleOpts "first").calcType SInf 2,
      calcTransform_path sampleHost (sampleTrace SInf none) (sampleOpts "first") "x" SInf
        rfl rfl (by simp [sampleTrace]), by simp [hw], ?_⟩,
    ⟨_, _, pctArrayNew (sampleOpts "prev").calcType SInf 2,
      calcTransform_path sampleHost (sampleTrace SInf none) (sampleOpts "prev") "x" SInf
        rfl rfl (by simp [sampleTrace]), by simp [hw], ?_⟩, rfl⟩
  · intro x hx
    simp only [SInf, List.mem_cons, List.mem_singleton, List.not_mem_nil, or_false] at hx
    rcases hx with rfl | rfl
    · simp [toNumber, Num.lt]
    · simp [toNumber, Num.lt]
  · rw [read_pctArrayNew _ _ _ _ (by decide) (by decide)]
    simp [pctValue, tmpIndex, sampleOpts, SInf, JSArray.read, toNumber, Num.sub, Num.div]
  · rw [read_pctArrayNew _ _ _ _ (by decide) (by decide)]
    simp [pctValue, tmpIndex, sampleOpts, SInf, JSArray.read, toNumber, Num.sub, Num.div]

/-- C19 (amended): upper bound.  When the first `len` source elements are finite and
strictly positive, every element of the array written by `calcTransform` is at most 1
(`x <= 1` holds), for every `calcType`, `first` and `prev` included; in exact arithmetic,
that is rounding apart, every element is a finite number strictly less than 1. -/
theorem calcTransform_lt_one (host : Host) (trace : Trace) (opts : TransformOpts)
    (p : String) (S : JSArray Num) (hen : opts.enabled = true)
    (ht : opts.target = some (.path p)) (hS : trace.props p = some S)
    (hpos : ∀ i, i < workingLen S trace → ∃ q : ℚ, 0 < q ∧ S.read i = some (Num.fin q)) :
    ∃ trace1 opts1 W, calcTransform host trace opts = .ok (trace1, opts1) ∧
      trace1.props p = some W ∧
      ∀ x ∈ W, Num.le (toNumber x) (.fin 1) = true ∧
        ∃ q : ℚ, x = some (Num.fin q) ∧ q < 1 := by
  refine ⟨_, _, pctArrayNew opts.calcType S (workingLen S trace),
    calcTransform_path host trace opts p S hen ht hS, by simp, ?_⟩
  intro x hx
  have key : ∃ q : ℚ, x = some (Num.fin q) ∧ q < 1 := by
    rcases Nat.eq_zero_or_pos (workingLen S trace) with h0 | hlen
    · rw [h0, pctArrayNew_zero] at hx
      simp only [List.mem_singleton] at hx
      exact ⟨0, hx, by norm_num⟩
    · rw [pctArrayNew_eq _ _ _ hlen] at hx
      simp only [List.mem_map, List.mem_range] at hx
      obtain ⟨j, hj, rfl⟩ := hx
      obtain ⟨q, hq, hq1⟩ := pctValue_lt_one opts.calcType S _ j hj hpos
      exact ⟨q, by rw [hq], hq1⟩
  refine ⟨?_, key⟩
  obtain ⟨q, rfl, hq1⟩ := key
  simp [toNumber, Num.le, hq1.le]

theorem calcTransform_lt_one_witness :
    (sampleOpts "prev").enabled = true ∧
    (∀ i, i < workingLen S3 (sampleTrace S3 none) →
      ∃ q : ℚ, 0 < q ∧ S3.read i = some (Num.fin q)) ∧
    ∃ trace1 opts1 W,
      calcTransform sampleHost (sampleTrace S3 none) (sampleOpts "prev")
        = .ok (trace1, opts1) ∧
      trace1.props "x" = some W ∧
      ∀ x ∈ W, Num.le (toNumber x) (.fin 1) = true ∧
        ∃ q : ℚ, x = some (Num.fin q) ∧ q < 1 := by
  have hpos : ∀ i, i < workingLen S3 (sampleTrace S3 none) →
      ∃ q : ℚ, 0 < q ∧ S3.read i = some (Num.fin q) := by
    intro i hi
    have hw : workingLen S3 (sampleTrace S3 none) = 3 := by decide
    rw [hw] at hi
    interval_cases i
    · exact ⟨10, by norm_num, rfl⟩
    · exact ⟨20, by norm_num, rfl⟩
    · exact ⟨30, by norm_num, rfl⟩
  exact ⟨rfl, hpos,
    calcTransform_lt_one sampleHost (sampleTrace S3 none) (sampleOpts "prev") "x" S3
      rfl rfl (by simp [sampleTrace]) hpos⟩

end PctChange
